import Mathlib

/-!
Shallow embedding of the flight-simulation engine of `rocketpyAlpha.py`
(classes `Flight`, `Flight.FlightPhases`, `Flight.TimeNodes` and the three
dynamics models `uDotRail`, `uDot`, `uDotParachute`), together with proofs
about the embedded definitions.

Arithmetic is carried out over an arbitrary linear ordered field `K`
(instantiated at `ℚ` for concrete evaluations and at `ℝ` where trigonometric
facts are needed).  External collaborator functions (environment, motor and
rocket curves, `numpy` routines such as `sqrt`, `arccos`, `cos`, `sin`) are
passed as explicit function parameters, mirroring how the source consumes
them as opaque scalar functions.  Python lists are modelled by `List`, and
Python's negative indexing / `insert` / `del l[i+1:]` semantics are embedded
explicitly (`pyGet`, `pyInsert`, `flushAfter`).  Code paths that raise are
modelled with `Option`/`Except`.
-/

namespace RocketPyAlpha

/-! ### Python list primitives -/

/-- Python `l[i]` with negative-index wrap-around; `none` models `IndexError`. -/
def pyGet {α : Type} (l : List α) (i : Int) : Option α :=
  if 0 ≤ i then l.get? i.toNat
  else if 0 ≤ (l.length : Int) + i then l.get? ((l.length : Int) + i).toNat
  else none

/-- Python `l.insert(i, x)`: the insertion position is the (clamped) effective
index; never fails. -/
def pyInsert {α : Type} (l : List α) (i : Int) (x : α) : List α :=
  let j : Nat := if i < 0 then ((l.length : Int) + i).toNat else min i.toNat l.length
  l.take j ++ x :: l.drop j

/-- Python `l[-1] = v` on a non-empty list (on `[]` the source would raise;
here it returns `[v]`, a case never exercised by the theorems). -/
def setLast {α : Type} (l : List α) (v : α) : List α :=
  l.dropLast ++ [v]

/-- Python `del l[index+1:]` (`FlightPhases.flushAfter` / `TimeNodes.flushAfter`,
always called with a non-negative index in the source). -/
def flushAfter {α : Type} (l : List α) (index : Nat) : List α :=
  l.take (index + 1)

/-- Python `range(a, b)` over integers: `[a, a+1, ..., b-1]`. -/
def intRange (a b : Int) : List Int :=
  (List.range (b - a).toNat).map (fun n : Nat => a + (n : Int))

/-! ### State vector

`u = [x, y, z, vx, vy, vz, e0, e1, e2, e3, omega1, omega2, omega3]`, the
13-component rigid-body state unpacked at the top of each dynamics model. -/

structure StateVec (K : Type) where
  x : K
  y : K
  z : K
  vx : K
  vy : K
  vz : K
  e0 : K
  e1 : K
  e2 : K
  e3 : K
  omega1 : K
  omega2 : K
  omega3 : K
deriving DecidableEq, Repr

/-! ### Collaborator data consumed by the dynamics models

Fields mirror the attributes read by `Flight.uDotRail` and `Flight.uDot`:
environment (`self.env`), rocket (`self.rocket`) and motor
(`self.rocket.motor`) quantities, each time/altitude-indexed curve as a
plain function `K → K` (the source calls `.getValueOpt`). -/

structure FlightData (K : Type) where
  -- environment
  g : K
  rL : K
  density : K → K
  windVelocityX : K → K
  windVelocityY : K → K
  -- rocket
  mass : K
  inertiaI : K
  inertiaZ : K
  area : K
  radius : K
  distanceRocketPropellant : K
  distanceRocketNozzle : K
  thrustExcentricityX : K
  thrustExcentricityY : K
  cpExcentricityX : K
  cpExcentricityY : K
  powerOnDrag : K → K
  powerOffDrag : K → K
  /-- one entry per aerodynamic surface: (z-position of the surface's center
  of pressure `aerodynamicSurface[0][2]`, lift slope `aerodynamicSurface[1]`) -/
  aerodynamicSurfaces : List (K × K)
  -- rocket total mass curve (`self.rocket.totalMass`)
  totalMass : K → K
  -- motor
  motorBurnOutTime : K
  motorNozzleRadius : K
  motorThrust : K → K
  motorMass : K → K
  motorMassDot : K → K
  motorInertiaI : K → K
  motorInertiaZ : K → K
  motorInertiaIDot : K → K
  motorInertiaZDot : K → K

variable {K : Type} [LinearOrderedField K]

/-! ### Initial solution (`Flight.__init__`, lines 4279-4299)

When `initialSolution is None` the constructor builds the single sample
`[0, 0,0,0, 0,0,0, e0,e1,e2,e3, 0,0,0]` from the launch inclination and
heading.  `cos`, `sin`, `pi` are the `numpy` externals. -/

def initialSolution (cos sin : K → K) (pi : K) (inclination heading : K) :
    List K :=
  let launchAngle := (90 - inclination) * (pi / 180)
  let rotAngle := (90 - heading) * (pi / 180)
  let rotAxisX := -(sin rotAngle)
  let rotAxisY := cos rotAngle
  let e0Init := cos (launchAngle / 2)
  let e1Init := sin (launchAngle / 2) * rotAxisX
  let e2Init := sin (launchAngle / 2) * rotAxisY
  let e3Init := 0
  [0, 0, 0, 0, 0, 0, 0, e0Init, e1Init, e2Init, e3Init, 0, 0, 0]

/-! ### Rail dynamics model (`Flight.uDotRail`, lines 4618-4690)

`sqrt` is the external real square root (the source's `** 0.5`). -/

/-- Net axial acceleration computed inside `uDotRail`:
`a3 = (R3 + Thrust)/M - (e0² - e1² - e2² + e3²) * g` (line 4660). -/
def railA3 (P : FlightData K) (sqrt : K → K) (t : K) (u : StateVec K) : K :=
  let M := P.totalMass t
  let freestreamSpeed := sqrt ((P.windVelocityX u.z - u.vx) ^ 2 +
    (P.windVelocityY u.z - u.vy) ^ 2 + u.vz ^ 2)
  let freestreamMach := freestreamSpeed / (3404 / 10)
  let dragCoeff := P.powerOnDrag freestreamMach
  let thrust := P.motorThrust t
  let rho := P.density u.z
  let R3 := -(1 / 2) * rho * freestreamSpeed ^ 2 * P.area * dragCoeff
  (R3 + thrust) / M - (u.e0 ^ 2 - u.e1 ^ 2 - u.e2 ^ 2 + u.e3 ^ 2) * P.g

/-- `Flight.uDotRail`: 1-DOF rail dynamics.  Returns the 13-component
derivative list `[vx, vy, vz, ax, ay, az, 0, 0, 0, 0, 0, 0, 0]`. -/
def uDotRail (P : FlightData K) (sqrt : K → K) (t : K) (u : StateVec K) :
    List K :=
  let a3 := railA3 P sqrt t u
  let ax := if a3 > 0 then 2 * (u.e1 * u.e3 + u.e0 * u.e2) * a3 else 0
  let ay := if a3 > 0 then 2 * (u.e2 * u.e3 - u.e0 * u.e1) * a3 else 0
  let az := if a3 > 0 then (1 - 2 * (u.e1 ^ 2 + u.e2 ^ 2)) * a3 else 0
  [u.vx, u.vy, u.vz, ax, ay, az, 0, 0, 0, 0, 0, 0, 0]

/-! ### Free-flight 6-DOF dynamics model (`Flight.uDot`, lines 4692-4932)

The quaternion-derived rotation matrix entries (lines 4762-4770), shared by
`uDot` and the per-surface computation. -/

def mat11 (u : StateVec K) : K := 1 - 2 * (u.e2 ^ 2 + u.e3 ^ 2)
def mat12 (u : StateVec K) : K := 2 * (u.e1 * u.e2 - u.e0 * u.e3)
def mat13 (u : StateVec K) : K := 2 * (u.e1 * u.e3 + u.e0 * u.e2)
def mat21 (u : StateVec K) : K := 2 * (u.e1 * u.e2 + u.e0 * u.e3)
def mat22 (u : StateVec K) : K := 1 - 2 * (u.e1 ^ 2 + u.e3 ^ 2)
def mat23 (u : StateVec K) : K := 2 * (u.e2 * u.e3 - u.e0 * u.e1)
def mat31 (u : StateVec K) : K := 2 * (u.e1 * u.e3 - u.e0 * u.e2)
def mat32 (u : StateVec K) : K := 2 * (u.e2 * u.e3 + u.e0 * u.e1)
def mat33 (u : StateVec K) : K := 1 - 2 * (u.e1 ^ 2 + u.e2 ^ 2)

/-- Drag-coefficient selection inside `uDot` (lines 4782-4794): freestream
Mach from wind and velocity, then
`if t > burnOutTime: powerOnDrag else: powerOffDrag` — note the source
consults the power-ON curve *after* burnout. -/
def uDotDragCoeff (P : FlightData K) (sqrt : K → K) (t : K) (u : StateVec K) :
    K :=
  let windVelocityX := P.windVelocityX u.z
  let windVelocityY := P.windVelocityY u.z
  let freestreamSpeed := sqrt ((windVelocityX - u.vx) ^ 2 +
    (windVelocityY - u.vy) ^ 2 + u.vz ^ 2)
  let freestreamMach := freestreamSpeed / (3404 / 10)
  if P.motorBurnOutTime < t then P.powerOnDrag freestreamMach
  else P.powerOffDrag freestreamMach

/-- The two lateral (body-frame x and y) components of an aerodynamic
surface's freestream velocity, `compStreamVxB` and `compStreamVyB`
(lines 4808-4821). -/
def compStreamLateral (P : FlightData K) (u : StateVec K) (surf : K × K) :
    K × K :=
  let vxB := mat11 u * u.vx + mat21 u * u.vy + mat31 u * u.vz
  let vyB := mat12 u * u.vx + mat22 u * u.vy + mat32 u * u.vz
  let compCp := surf.1
  let compVxB := vxB + compCp * u.omega2
  let compVyB := vyB - compCp * u.omega1
  let compZ := u.z + compCp
  let compWindVx := P.windVelocityX compZ
  let compWindVy := P.windVelocityY compZ
  let compWindVxB := mat11 u * compWindVx + mat21 u * compWindVy
  let compWindVyB := mat12 u * compWindVx + mat22 u * compWindVy
  (compWindVxB - compVxB, compWindVyB - compVyB)

/-- One aerodynamic surface's contribution to `(R1, R2, M1, M2)` in the
strip-theory loop of `uDot` (lines 4805-4846).  `aGeo` is the geometric
offset `a = b*Mt/M` and `rho` the local density; both are computed by `uDot`
before the loop.  Returns `(ΔR1, ΔR2, ΔM1, ΔM2)`; the whole contribution is
zero when the guard `compStreamVxB² + compStreamVyB² != 0` fails (or when
the attack-angle guard fails). -/
def surfaceContribution (P : FlightData K) (sqrt acos : K → K)
    (u : StateVec K) (aGeo rho : K) (surf : K × K) : K × K × K × K :=
  let vzB := mat13 u * u.vx + mat23 u * u.vy + mat33 u * u.vz
  let compCp := surf.1
  let clalpha := surf.2
  let compVzB := vzB
  let compZ := u.z + compCp
  let compWindVx := P.windVelocityX compZ
  let compWindVy := P.windVelocityY compZ
  let compWindVzB := mat13 u * compWindVx + mat23 u * compWindVy
  let lateral := compStreamLateral P u surf
  let compStreamVxB := lateral.1
  let compStreamVyB := lateral.2
  let compStreamVzB := compWindVzB - compVzB
  let compStreamSpeed := sqrt (compStreamVxB ^ 2 + compStreamVyB ^ 2 +
    compStreamVzB ^ 2)
  if compStreamVxB ^ 2 + compStreamVyB ^ 2 ≠ 0 then
    let compStreamVzBn := compStreamVzB / compStreamSpeed
    if -1 * compStreamVzBn < 1 then
      let compAttackAngle := acos (-compStreamVzBn)
      let compLift := (1 / 2) * rho * compStreamSpeed ^ 2 * P.area *
        clalpha * compAttackAngle
      let liftDirNorm := sqrt (compStreamVxB ^ 2 + compStreamVyB ^ 2)
      let compLiftXB := compLift * (compStreamVxB / liftDirNorm)
      let compLiftYB := compLift * (compStreamVyB / liftDirNorm)
      (compLiftXB, compLiftYB,
       -((compCp + aGeo) * compLiftYB), (compCp + aGeo) * compLiftXB)
    else (0, 0, 0, 0)
  else (0, 0, 0, 0)

/-- `Flight.uDot`: full 6-DOF free-flight dynamics.  Returns
`[vx, vy, vz, ax, ay, az, e0Dot, e1Dot, e2Dot, e3Dot, alpha1, alpha2,
alpha3]`. -/
def uDot (P : FlightData K) (sqrt acos : K → K) (t : K) (u : StateVec K) :
    List K :=
  -- motor-phase-dependent quantities (lines 4721-4746)
  let burning := t < P.motorBurnOutTime
  let Tz := if burning then P.motorInertiaZ t else 0
  let Ti := if burning then P.motorInertiaI t else 0
  let TzDot := if burning then P.motorInertiaZDot t else 0
  let TiDot := if burning then P.motorInertiaIDot t else 0
  let MtDot := if burning then P.motorMassDot t else 0
  let Mt := if burning then P.motorMass t else 0
  let thrust := if burning then P.motorThrust t else 0
  let M1a : K := if burning then P.thrustExcentricityX * P.motorThrust t else 0
  let M2a : K := if burning then -(P.thrustExcentricityY * P.motorThrust t) else 0
  -- rocket quantities (lines 4748-4760)
  let Rz := P.inertiaZ
  let Ri := P.inertiaI
  let Mr := P.mass
  let M := Mt + Mr
  let mu := Mt * Mr / (Mt + Mr)
  let b := -P.distanceRocketPropellant
  let c := -P.distanceRocketNozzle
  let aGeo := b * Mt / M
  let rN := P.motorNozzleRadius
  -- freestream and drag (lines 4780-4799)
  let windVelocityX := P.windVelocityX u.z
  let windVelocityY := P.windVelocityY u.z
  let freestreamSpeed := sqrt ((windVelocityX - u.vx) ^ 2 +
    (windVelocityY - u.vy) ^ 2 + u.vz ^ 2)
  let dragCoeff := uDotDragCoeff P sqrt t u
  let rho := P.density u.z
  let R3 := -(1 / 2) * rho * freestreamSpeed ^ 2 * P.area * dragCoeff
  let M1b := M1a + P.cpExcentricityY * R3
  let M2b := M2a - P.cpExcentricityX * R3
  -- strip-theory summation over aerodynamic surfaces (lines 4805-4846)
  let contribs := P.aerodynamicSurfaces.map
    (surfaceContribution P sqrt acos u aGeo rho)
  let R1 := contribs.foldl (fun s c => s + c.1) 0
  let R2 := contribs.foldl (fun s c => s + c.2.1) 0
  let M1 := contribs.foldl (fun s c => s + c.2.2.1) M1b
  let M2 := contribs.foldl (fun s c => s + c.2.2.2) M2b
  let M3 : K := 0
  -- angular acceleration (lines 4848-4857)
  let alpha1 := (M1 - (u.omega2 * u.omega3 * (Rz + Tz - Ri - Ti - mu * b ^ 2) +
    u.omega1 * ((TiDot + MtDot * (Mr - 1) * (b / M) ^ 2) -
      MtDot * ((rN / 2) ^ 2 + (c - b * mu / Mr) ^ 2)))) / (Ri + Ti + mu * b ^ 2)
  let alpha2 := (M2 - (u.omega1 * u.omega3 * (Ri + Ti + mu * b ^ 2 - Rz - Tz) +
    u.omega2 * ((TiDot + MtDot * (Mr - 1) * (b / M) ^ 2) -
      MtDot * ((rN / 2) ^ 2 + (c - b * mu / Mr) ^ 2)))) / (Ri + Ti + mu * b ^ 2)
  let alpha3 := (M3 - u.omega3 * (TzDot - MtDot * rN ^ 2 / 2)) / (Rz + Tz)
  -- Euler parameter derivatives (lines 4858-4862)
  let e0Dot := (1 / 2) * (-u.omega1 * u.e1 - u.omega2 * u.e2 - u.omega3 * u.e3)
  let e1Dot := (1 / 2) * (u.omega1 * u.e0 + u.omega3 * u.e2 - u.omega2 * u.e3)
  let e2Dot := (1 / 2) * (u.omega2 * u.e0 - u.omega3 * u.e1 + u.omega1 * u.e3)
  let e3Dot := (1 / 2) * (u.omega3 * u.e0 + u.omega2 * u.e1 - u.omega1 * u.e2)
  -- linear acceleration, rotated to the inertial frame (lines 4864-4869)
  let L1 := (R1 - b * Mt * (u.omega2 ^ 2 + u.omega3 ^ 2) -
    2 * c * MtDot * u.omega2) / M
  let L2 := (R2 + b * Mt * (alpha3 + u.omega1 * u.omega2) +
    2 * c * MtDot * u.omega1) / M
  let L3 := (R3 - b * Mt * (alpha2 - u.omega1 * u.omega3) + thrust) / M
  let ax := mat11 u * L1 + mat12 u * L2 + mat13 u * L3
  let ay := mat21 u * L1 + mat22 u * L2 + mat23 u * L3
  let az := mat31 u * L1 + mat32 u * L2 + mat33 u * L3 - P.g
  [u.vx, u.vy, u.vz, ax, ay, az, e0Dot, e1Dot, e2Dot, e3Dot,
   alpha1, alpha2, alpha3]

/-! ### Event detection (`Flight.__init__`, lines 4418-4554) -/

/-- Cubic Hermite coefficients `(a, b, c, d)` fit to indicator value and
derivative at both ends of a step of size `D` (lines 4432-4436):
`d = y0`, `c = yp0`, `b = (3*y1 - yp1*D - 2*c*D - 3*d)/D²`,
`a = -(2*y1 - yp1*D - c*D - 2*d)/D³`. -/
def hermiteCoeffs (D y0 yp0 y1 yp1 : K) : K × K × K × K :=
  let d := y0
  let c := yp0
  let b := (3 * y1 - yp1 * D - 2 * c * D - 3 * d) / D ^ 2
  let a := -(2 * y1 - yp1 * D - c * D - 2 * d) / D ^ 3
  (a, b, c, d)

/-- Evaluation of the cubic `a*x³ + b*x² + c*x + d`. -/
def cubicEval (coeffs : K × K × K × K) (x : K) : K :=
  coeffs.1 * x ^ 3 + coeffs.2.1 * x ^ 2 + coeffs.2.2.1 * x + coeffs.2.2.2

/-- Apogee event time (line 4478): the source assumes a *linear* `vz(t)`
between the bracketing samples `(t0, vz0)` and `(t1, vz1)` and returns
`t_root = -(t1 - t0)*vz0/(vz1 - vz0) + t0`. -/
def apogeeTRoot (t0 t1 vz0 vz1 : K) : K :=
  -(t1 - t0) * vz0 / (vz1 - vz0) + t0

/-- A complex value as produced by the source's `1j` cubic-root arithmetic:
real and imaginary parts. -/
structure Cx (K : Type) where
  re : K
  im : K
deriving DecidableEq, Repr

/-- Root filter applied after the analytic cubic solve (lines 4446-4449 and
4529-4532): keep a root iff `0 < t_root.real < t1` and
`abs(t_root.imag) < 0.001`, and record its real part.  The cubic's time
variable is measured from the earlier bracketing sample, so the open
interval is `(0, t1)` with `t1` the step length. -/
def validRoots (t1 : K) (roots : List (Cx K)) : List K :=
  (roots.filter fun z =>
    decide (0 < z.re ∧ z.re < t1 ∧ |z.im| < 1 / 1000)).map Cx.re

/-- Root selection for rail-exit / impact detection (lines 4446-4453 and
4529-4536): filter, raise `ValueError` when more than one valid root
remains, otherwise take `valid_t_root[0]` (an empty list would raise
`IndexError` at the source's subscript). -/
def selectEventRoot (eventName : String) (t1 : K) (roots : List (Cx K)) :
    Except String K :=
  let valid := validRoots t1 roots
  if 1 < valid.length then
    Except.error ("Multiple roots found when solving for " ++ eventName ++
      " time.")
  else
    match valid with
    | [] => Except.error "IndexError: list index out of range"
    | r :: _ => Except.ok r

/-! ### Event-time solution correction

A solution entry is a `(time, state)` pair (`[t, *y]` in the source);
`interp` is the stepper's dense interpolant `phase.solver.dense_output()`. -/

/-- Rail-exit (lines 4453-4456) and ground-impact (lines 4536-4540)
correction: the absolute event time is `valid_t_root[0] + solution[-2][0]`,
the state there is reconstructed by the dense interpolant, and
`solution[-1]` is overwritten in place.  `none` models the `IndexError`
when fewer than two samples exist. -/
def eventCorrect (interp : K → List K) (sol : List (K × List K))
    (validRoot : K) : Option (List (K × List K)) :=
  match pyGet sol (-2) with
  | none => none
  | some prev =>
    let t := validRoot + prev.1
    some (setLast sol (t, interp t))

/-- Apogee handling's effect on the solution list (lines 4479-4493): the
state at `t_root` is fetched from the dense interpolant, but `solution[-1]`
is only rolled back when `terminateOnApogee` is set; otherwise the solution
is left untouched (the interpolated state is stored in `apogeeState`
only). -/
def apogeeSolutionUpdate (terminateOnApogee : Bool) (interp : K → List K)
    (sol : List (K × List K)) (tRoot : K) : List (K × List K) :=
  if terminateOnApogee then setLast sol (tRoot, interp tRoot) else sol

/-! ### Parachutes, callbacks, flight phases and time nodes -/

/-- The parachute fields consumed by the scheduling logic (`CdS`, `lag`,
`samplingRate`); `name` distinguishes parachutes as Python object identity
does. -/
structure ParachuteRec (K : Type) where
  name : String
  CdS : K
  lag : K
  samplingRate : K
deriving DecidableEq, Repr

/-- The only callback the engine installs at a parachute event: the lambda
`setattr(self, 'parachuteCdS', parachuteCdS)` of lines 4390/4601, modelled
by the `CdS` value it installs. -/
inductive Callback (K : Type) where
  | setParachuteCdS (cds : K)
deriving DecidableEq, Repr

/-- `Flight.FlightPhases.FlightPhase`: start time, dynamics-model reference
(`None` for the terminal sentinel), callbacks, clear flag.  `μ` is the type
of dynamics-model references. -/
structure FlightPhase (K μ : Type) where
  t : K
  derivative : Option μ
  callbacks : List (Callback K)
  clear : Bool
deriving DecidableEq, Repr

/-- `Flight.TimeNodes.TimeNode`: time, parachute subscriptions, callbacks. -/
structure TimeNode (K : Type) where
  t : K
  parachutes : List (ParachuteRec K)
  callbacks : List (Callback K)
deriving DecidableEq, Repr

/-- `Flight.FlightPhases.add` (lines 5446-5491), with Python's negative-index
semantics.  Out-of-range accesses (`IndexError`) and exhausted recursion
fuel are `none`.  Exact time ties nudge the inserted phase's start time by
`1e-7` and recurse; misplaced insertions recurse with a corrected index. -/
def fpAdd {μ : Type} (fuel : Nat) (lst : List (FlightPhase K μ))
    (p : FlightPhase K μ) (index : Option Int) :
    Option (List (FlightPhase K μ)) :=
  match fuel with
  | 0 => none
  | fuel + 1 =>
    if lst.isEmpty then some (lst ++ [p])
    else
      match index with
      | none =>
        match lst.getLast? with
        | none => none
        | some prev =>
          if prev.t < p.t then some (lst ++ [p])
          else if p.t = prev.t then
            fpAdd fuel lst { p with t := p.t + 1 / 10000000 } none
          else fpAdd fuel lst p (some (-2))
      | some i =>
        match pyGet lst i with
        | none => none
        | some next =>
          match pyGet lst (i - 1) with
          | none => none
          | some prev =>
            if prev.t < p.t ∧ p.t < next.t then some (pyInsert lst i p)
            else if p.t < prev.t then fpAdd fuel lst p (some (i - 1))
            else if p.t = prev.t then
              fpAdd fuel lst { p with t := p.t + 1 / 10000000 } (some i)
            else if p.t = next.t then
              fpAdd fuel lst { p with t := p.t + 1 / 10000000 } (some (i + 1))
            else fpAdd fuel lst p (some (i + 1))

/-- `Flight.FlightPhases.addPhase` (line 5493): wraps the new phase record
and calls `add`. -/
def fpAddPhase {μ : Type} (fuel : Nat) (lst : List (FlightPhase K μ))
    (t : K) (derivative : Option μ) (callbacks : List (Callback K))
    (clear : Bool) (index : Option Int) : Option (List (FlightPhase K μ)) :=
  fpAdd fuel lst ⟨t, derivative, callbacks, clear⟩ index

/-- `Flight.TimeNodes.addParachutes` (lines 5530-5536): for each parachute,
append one sampling node at `i * pcDt` (subscribing exactly that parachute)
for `i` in `range(ceil(t_init/pcDt), floor(t_end/pcDt) + 1)`, where
`pcDt = 1/samplingRate`. -/
def addParachutes [FloorRing K] (parachutes : List (ParachuteRec K))
    (tInit tEnd : K) (nodes : List (TimeNode K)) : List (TimeNode K) :=
  nodes ++ (parachutes.map fun p =>
    let pcDt := 1 / p.samplingRate
    (intRange ⌈tInit / pcDt⌉ (⌊tEnd / pcDt⌋ + 1)).map
      fun i : Int => TimeNode.mk ((i : K) * pcDt) [p] []).flatten

/-- Loop body of `Flight.TimeNodes.merge` (lines 5541-5555): `kept` is
`tmp_list[-1]`; a node within `1e-7` of it is folded into it (subscription
lists concatenated), otherwise the node becomes the next kept node. -/
def mergeAux (kept : TimeNode K) : List (TimeNode K) → List (TimeNode K)
  | [] => [kept]
  | n :: ns =>
    if |n.t - kept.t| < 1 / 10000000 then
      mergeAux ⟨kept.t, kept.parachutes ++ n.parachutes,
        kept.callbacks ++ n.callbacks⟩ ns
    else kept :: mergeAux n ns

/-- `Flight.TimeNodes.merge`: seeds the temporary list with the first node
(the source raises on an empty list, which never occurs as boundary nodes
are added first; here `[]` maps to `[]`). -/
def tnMerge (nodes : List (TimeNode K)) : List (TimeNode K) :=
  match nodes with
  | [] => []
  | n :: ns => mergeAux n ns

/-! ### Parachute trigger transition (`Flight.__init__`, lines 4381-4397,
and identically lines 4592-4613 for the overshoot discipline) -/

/-- The simulation state touched by a parachute trigger: current solver time
`t`, active parachute list, flight-phase list, the current phase's time-node
list, solver status and recorded parachute events. -/
structure SimState (K μ : Type) where
  t : K
  parachutes : List (ParachuteRec K)
  flightPhases : List (FlightPhase K μ)
  timeNodes : List (TimeNode K)
  solverFinished : Bool
  parachuteEvents : List (K × ParachuteRec K)
deriving DecidableEq, Repr

/-- Effect of a parachute trigger firing at node time `nodeT` while the
engine is in phase `phaseIndex` (dynamics reference `currentDeriv`) and at
time node `nodeIndex`:
remove the parachute; insert a clear lag phase at `nodeT` with the current
dynamics at index `phaseIndex+1`; insert the descent phase at
`nodeT + lag` with `uDotParachute` and the CdS-installing callback at index
`phaseIndex+2`; flush the remaining time nodes and append a node at the
current solver time; mark the solver finished; record the event. -/
def parachuteTriggerFire {μ : Type} (fuel : Nat) (uDotParachuteRef : μ)
    (s : SimState K μ) (phaseIndex nodeIndex : Nat) (currentDeriv : Option μ)
    (nodeT : K) (p : ParachuteRec K) : Option (SimState K μ) :=
  match fpAdd fuel s.flightPhases ⟨nodeT, currentDeriv, [], true⟩
      (some ((phaseIndex : Int) + 1)) with
  | none => none
  | some phases1 =>
    match fpAdd fuel phases1
        ⟨nodeT + p.lag, some uDotParachuteRef,
          [Callback.setParachuteCdS p.CdS], false⟩
        (some ((phaseIndex : Int) + 2)) with
    | none => none
    | some phases2 =>
      some { s with
        parachutes := s.parachutes.erase p,
        flightPhases := phases2,
        timeNodes := flushAfter s.timeNodes nodeIndex ++ [⟨s.t, [], []⟩],
        solverFinished := true,
        parachuteEvents := s.parachuteEvents ++ [(s.t, p)] }

/-- The flight-phase list invariant: start times strictly increasing. -/
def phasesSorted {μ : Type} (l : List (FlightPhase K μ)) : Prop :=
  l.Chain' (fun a b => a.t < b.t)

instance {μ : Type} [DecidableEq K] (l : List (FlightPhase K μ)) :
    Decidable (phasesSorted l) :=
  List.decidableChain' l

/-! ### Concrete data for closed-form evaluations (rational instances of the
collaborator curves, used by the concrete theorems below) -/

/-- A concrete rational `FlightData`: zero wind, unit density, constant
thrust, burnout at `t = 2`, and distinguishable constant drag curves
(`powerOnDrag ≡ 9`, `powerOffDrag ≡ 7`). -/
def sampleData : FlightData ℚ where
  g := 98 / 10
  rL := 26 / 5
  density := fun _ => 1
  windVelocityX := fun _ => 0
  windVelocityY := fun _ => 0
  mass := 19
  inertiaI := 33 / 5
  inertiaZ := 351 / 10000
  area := 1
  radius := 127 / 2000
  distanceRocketPropellant := -85704 / 100000
  distanceRocketNozzle := -1255 / 1000
  thrustExcentricityX := 0
  thrustExcentricityY := 0
  cpExcentricityX := 0
  cpExcentricityY := 0
  powerOnDrag := fun _ => 9
  powerOffDrag := fun _ => 7
  aerodynamicSurfaces := [(1, 2)]
  totalMass := fun _ => 20
  motorBurnOutTime := 2
  motorNozzleRadius := 33 / 1000
  motorThrust := fun _ => 100
  motorMass := fun _ => 1
  motorMassDot := fun _ => 0
  motorInertiaI := fun _ => 1
  motorInertiaZ := fun _ => 1
  motorInertiaIDot := fun _ => 0
  motorInertiaZDot := fun _ => 0

/-- The all-zero state vector. -/
def zeroState : StateVec ℚ :=
  ⟨0, 0, 0, 0, 0, 0, 0, 0, 0, 0, 0, 0, 0⟩

/-- A state moving with unit x-velocity (zero quaternion, zero rates). -/
def stateVX1 : StateVec ℚ :=
  ⟨0, 0, 0, 1, 0, 0, 0, 0, 0, 0, 0, 0, 0⟩

/-- A concrete parachute: `CdS = 1`, `lag = 3/2`, `samplingRate = 2`. -/
def drogueSample : ParachuteRec ℚ :=
  ⟨"Drogue", 1, 3 / 2, 2⟩

/-- A concrete simulation state (dynamics models named by strings): the
engine is in the phase starting at `t = 0`, the terminal sentinel starts at
`t = 10`, and three time nodes are scheduled. -/
def trigSimState : SimState ℚ String where
  t := 9 / 10
  parachutes := [drogueSample]
  flightPhases := [⟨0, some "uDotRail", [], false⟩, ⟨10, none, [], true⟩]
  timeNodes := [⟨0, [], []⟩, ⟨1, [drogueSample], []⟩, ⟨2, [], []⟩]
  solverFinished := false
  parachuteEvents := []

/-! ## Theorems -/

/-- C10: with `initialSolution = None`, for every inclination and heading the
initial sample is `[0, 0,0,0, 0,0,0, e0,e1,e2,e3, 0,0,0]` with
`(e0,e1,e2,e3) = (cos(a/2), -sin(a/2)*sin(r), sin(a/2)*cos(r), 0)` for
`a = (90-inclination)*pi/180`, `r = (90-heading)*pi/180`, and the squared
quaternion norm `e0²+e1²+e2²+e3²` equals exactly 1. -/
theorem initialSolution_attitude_unit_norm (inclination heading : ℝ) :
    initialSolution Real.cos Real.sin Real.pi inclination heading =
      [0, 0, 0, 0, 0, 0, 0,
       Real.cos ((90 - inclination) * (Real.pi / 180) / 2),
       Real.sin ((90 - inclination) * (Real.pi / 180) / 2) *
         -Real.sin ((90 - heading) * (Real.pi / 180)),
       Real.sin ((90 - inclination) * (Real.pi / 180) / 2) *
         Real.cos ((90 - heading) * (Real.pi / 180)),
       0, 0, 0, 0] ∧
    Real.cos ((90 - inclination) * (Real.pi / 180) / 2) ^ 2 +
      (Real.sin ((90 - inclination) * (Real.pi / 180) / 2) *
        -Real.sin ((90 - heading) * (Real.pi / 180))) ^ 2 +
      (Real.sin ((90 - inclination) * (Real.pi / 180) / 2) *
        Real.cos ((90 - heading) * (Real.pi / 180))) ^ 2 +
      (0 : ℝ) ^ 2 = 1 := by
  refine ⟨rfl, ?_⟩
  have h1 := Real.sin_sq_add_cos_sq ((90 - inclination) * (Real.pi / 180) / 2)
  have h2 := Real.sin_sq_add_cos_sq ((90 - heading) * (Real.pi / 180))
  linear_combination
    Real.sin ((90 - inclination) * (Real.pi / 180) / 2) ^ 2 * h2 + h1

/-- C6: `uDotRail` always returns zero quaternion derivatives and zero
angular accelerations; its linear acceleration is zero whenever the net
axial acceleration `railA3` is not positive, and otherwise is `railA3`
directed along the rocket's body axis (the third column of the
quaternion-derived rotation matrix). -/
theorem uDotRail_clamps_and_zero_rotation {K : Type} [LinearOrderedField K]
    (P : FlightData K) (sqrt : K → K) (t : K) (u : StateVec K) :
    uDotRail P sqrt t u =
      [u.vx, u.vy, u.vz] ++
      (if 0 < railA3 P sqrt t u then
        [2 * (u.e1 * u.e3 + u.e0 * u.e2) * railA3 P sqrt t u,
         2 * (u.e2 * u.e3 - u.e0 * u.e1) * railA3 P sqrt t u,
         (1 - 2 * (u.e1 ^ 2 + u.e2 ^ 2)) * railA3 P sqrt t u]
      else [0, 0, 0]) ++ [0, 0, 0, 0, 0, 0, 0] := by
  by_cases h : 0 < railA3 P sqrt t u <;> simp [uDotRail, h]

/-- C2 (failing input): in `uDot`, at `t = 1` *before* burnout
(`burnOutTime = 2`) the drag coefficient comes from the power-OFF curve,
and at `t = 3` *after* burnout it comes from the power-ON curve — the
opposite of the claimed (and physically intended) selection. -/
theorem uDot_drag_selection_reversed :
    (1 : ℚ) < sampleData.motorBurnOutTime ∧
    uDotDragCoeff sampleData id 1 zeroState = sampleData.powerOffDrag 0 ∧
    sampleData.powerOffDrag 0 ≠ sampleData.powerOnDrag 0 ∧
    sampleData.motorBurnOutTime < 3 ∧
    uDotDragCoeff sampleData id 3 zeroState = sampleData.powerOnDrag 0 := by
  norm_num [uDotDragCoeff, sampleData, zeroState]

/-- C1 (counterexample): concrete bracketing samples
`(t0, vz0) = (0, 2)`, `(t1, vz1) = (1, -1)` with vanishing acceleration at
both ends: the sign of vz changes, the event time computed by the source's
linear formula lies inside the open bracket, but it is *not* a root of the
cubic Hermite polynomial fit to the indicator and its derivative — the
source finds the apogee time by linear interpolation, not by the general
cubic-Hermite event technique. -/
theorem apogee_time_not_hermite_root :
    (0 : ℚ) < 2 ∧ (-1 : ℚ) < 0 ∧
    0 < apogeeTRoot (0 : ℚ) 1 2 (-1) ∧ apogeeTRoot (0 : ℚ) 1 2 (-1) < 1 ∧
    cubicEval (hermiteCoeffs (1 : ℚ) 2 0 (-1) 0)
      (apogeeTRoot (0 : ℚ) 1 2 (-1) - 0) ≠ 0 := by
  norm_num [cubicEval, hermiteCoeffs, apogeeTRoot]

/-- C1 (amended): the apogee event time is the zero of the *linear*
interpolant of the vertical velocity between the two bracketing samples:
whenever `t1 ≠ t0` and `vz1 ≠ vz0`, the line through `(t0, vz0)` and
`(t1, vz1)` vanishes at `apogeeTRoot t0 t1 vz0 vz1`. -/
theorem apogee_time_is_linear_root {K : Type} [LinearOrderedField K]
    (t0 t1 vz0 vz1 : K) (ht : t1 - t0 ≠ 0) (hv : vz1 - vz0 ≠ 0) :
    vz0 + (apogeeTRoot t0 t1 vz0 vz1 - t0) * ((vz1 - vz0) / (t1 - t0)) = 0 := by
  unfold apogeeTRoot
  field_simp
  ring

/-- Witness for `apogee_time_is_linear_root` at
`(t0, t1, vz0, vz1) = (0, 1, 2, -1)`. -/
theorem apogee_time_is_linear_root_witness :
    ((1 : ℚ) - 0 ≠ 0) ∧ ((-1 : ℚ) - 2 ≠ 0) ∧
    (2 : ℚ) + (apogeeTRoot (0 : ℚ) 1 2 (-1) - 0) * (((-1) - 2) / (1 - 0)) = 0 :=
  ⟨by norm_num, by norm_num,
    apogee_time_is_linear_root 0 1 2 (-1) (by norm_num) (by norm_num)⟩

/-- C4: in rail-exit / ground-impact detection, every cubic root whose real
part lies outside the open bracket interval `(0, t1)` or whose
imaginary-part magnitude exceeds the `0.001` tolerance is discarded by the
root filter, and when more than one root survives the filter the selection
raises the fatal `ValueError` immediately. -/
theorem eventRoot_filter_and_multiple_root_abort {K : Type}
    [LinearOrderedField K] (eventName : String) (t1 : K)
    (roots : List (Cx K)) :
    (∀ z ∈ roots, (z.re ≤ 0 ∨ t1 ≤ z.re ∨ 1 / 1000 < |z.im|) →
      z ∉ roots.filter
        (fun z => decide (0 < z.re ∧ z.re < t1 ∧ |z.im| < 1 / 1000))) ∧
    (1 < (validRoots t1 roots).length →
      selectEventRoot eventName t1 roots =
        Except.error ("Multiple roots found when solving for " ++ eventName ++
          " time.")) := by
  constructor
  · rintro z _ hbad hmem
    rw [List.mem_filter] at hmem
    have h := of_decide_eq_true hmem.2
    rcases hbad with h1 | h1 | h1
    · exact absurd h.1 (not_lt.mpr h1)
    · exact absurd h.2.1 (not_lt.mpr h1)
    · exact absurd h.2.2 (not_lt.mpr (le_of_lt h1))
  · intro h
    unfold selectEventRoot
    rw [if_pos h]

/-- Witness for `eventRoot_filter_and_multiple_root_abort`: the root `-1`
(outside the open interval `(0, 1)`) is discarded, and with the two valid
roots `1/2` and `1/4` the rail-exit selection aborts with the
`ValueError` message. -/
theorem eventRoot_filter_and_multiple_root_abort_witness :
    (Cx.mk (-1 : ℚ) 0 ∉
      ([⟨1/2, 0⟩, ⟨1/4, 0⟩, ⟨-1, 0⟩] : List (Cx ℚ)).filter
        (fun z => decide (0 < z.re ∧ z.re < 1 ∧ |z.im| < 1 / 1000))) ∧
    selectEventRoot "rail exit" (1 : ℚ) [⟨1/2, 0⟩, ⟨1/4, 0⟩, ⟨-1, 0⟩] =
      Except.error ("Multiple roots found when solving for " ++ "rail exit" ++
        " time.") :=
  ⟨(eventRoot_filter_and_multiple_root_abort "rail exit" 1 _).1 ⟨-1, 0⟩
      (by simp) (Or.inl (by norm_num)),
   (eventRoot_filter_and_multiple_root_abort "rail exit" 1 _).2
      (by norm_num [validRoots, List.filter_cons])⟩

/-- C3 (counterexample): a confirmed apogee event with `terminateOnApogee`
off leaves the solution list untouched — the most recent sample is *not*
overwritten with the interpolated event-time pair (which here differs from
it). -/
theorem apogee_event_leaves_solution_uncorrected :
    apogeeSolutionUpdate false (fun t => [t + 100])
        [((0 : ℚ), [0]), (1, [5])] (1 / 2) = [((0 : ℚ), [0]), (1, [5])] ∧
    [((0 : ℚ), [0]), (1, [5])].getLast? = some ((1 : ℚ), [5]) ∧
    ((1 : ℚ), [(5 : ℚ)]) ≠ ((1 / 2 : ℚ), (fun t => [t + 100]) (1 / 2 : ℚ)) := by
  refine ⟨rfl, rfl, ?_⟩
  simp only [Prod.mk.injEq, not_and]
  intro h
  norm_num at h

/-- C3 (amended): rail-exit and ground-impact events always overwrite the
most recent solution sample in place with the dense-interpolant state at the
event time, leaving all earlier samples (and the list length) unchanged;
the apogee event does so only when `terminateOnApogee` is set and otherwise
leaves the solution unchanged. -/
theorem event_time_correction_frame {K : Type} [LinearOrderedField K]
    (interp : K → List K) (sol : List (K × List K)) (root tRoot : K)
    (prev : K × List K) (hprev : pyGet sol (-2) = some prev) :
    eventCorrect interp sol root =
        some (setLast sol (root + prev.1, interp (root + prev.1))) ∧
    (setLast sol (root + prev.1, interp (root + prev.1))).dropLast =
        sol.dropLast ∧
    (setLast sol (root + prev.1, interp (root + prev.1))).getLast? =
        some (root + prev.1, interp (root + prev.1)) ∧
    (setLast sol (root + prev.1, interp (root + prev.1))).length =
        sol.length ∧
    apogeeSolutionUpdate true interp sol tRoot =
        setLast sol (tRoot, interp tRoot) ∧
    apogeeSolutionUpdate false interp sol tRoot = sol := by
  have hlen : 2 ≤ sol.length := by
    by_contra hc
    unfold pyGet at hprev
    rw [if_neg (by norm_num)] at hprev
    rw [if_neg (by omega)] at hprev
    exact Option.noConfusion hprev
  refine ⟨?_, ?_, ?_, ?_, rfl, rfl⟩
  · unfold eventCorrect
    rw [hprev]
  · unfold setLast
    exact List.dropLast_concat
  · unfold setLast
    exact List.getLast?_concat _
  · unfold setLast
    rw [List.length_append, List.length_dropLast]
    simp
    omega

/-- Witness for `event_time_correction_frame` on a two-sample solution. -/
theorem event_time_correction_frame_witness :
    eventCorrect (fun t => [t + 100]) [((0 : ℚ), [0]), (1, [5])] (1 / 4) =
      some (setLast [((0 : ℚ), [0]), (1, [5])]
        (1 / 4 + 0, [(1 / 4 + 0 : ℚ) + 100])) :=
  (event_time_correction_frame (fun t => [t + 100]) [((0 : ℚ), [0]), (1, [5])]
    (1 / 4) 0 ((0 : ℚ), [0]) rfl).1

/-- `intRange` hits exactly the integers of Python's `range(a, b)`. -/
theorem mem_intRange {a b i : Int} : i ∈ intRange a b ↔ a ≤ i ∧ i < b := by
  constructor
  · intro h
    obtain ⟨n, hn, rfl⟩ := List.mem_map.mp h
    rw [List.mem_range] at hn
    omega
  · intro h
    refine List.mem_map.mpr ⟨(i - a).toNat, ?_, ?_⟩
    · rw [List.mem_range]
      omega
    · omega

/-- C7: `addParachutes` adds, for each parachute with `dt = 1/samplingRate`,
exactly the nodes `i*dt` for `ceil(t_init/dt) ≤ i ≤ floor(t_end/dt)`, each
subscribing exactly that parachute; and `merge` folds a node lying within
`1e-7` of the previously kept node into it, concatenating the subscription
lists, while a farther node is kept as the next node. -/
theorem timeNodes_sampling_and_merge {K : Type} [LinearOrderedField K]
    [FloorRing K] (ps : List (ParachuteRec K)) (tInit tEnd : K)
    (nodes : List (TimeNode K)) :
    (∀ nd : TimeNode K,
      nd ∈ addParachutes ps tInit tEnd nodes ↔
        nd ∈ nodes ∨ ∃ p ∈ ps, ∃ i : ℤ,
          ⌈tInit / (1 / p.samplingRate)⌉ ≤ i ∧
          i ≤ ⌊tEnd / (1 / p.samplingRate)⌋ ∧
          nd = ⟨(i : K) * (1 / p.samplingRate), [p], []⟩) ∧
    (∀ (a b : TimeNode K) (rest : List (TimeNode K)),
      (|b.t - a.t| < 1 / 10000000 →
        tnMerge (a :: b :: rest) =
          tnMerge (⟨a.t, a.parachutes ++ b.parachutes,
            a.callbacks ++ b.callbacks⟩ :: rest)) ∧
      (¬|b.t - a.t| < 1 / 10000000 →
        tnMerge (a :: b :: rest) = a :: tnMerge (b :: rest))) := by
  constructor
  · intro nd
    rw [addParachutes, List.mem_append]
    apply or_congr Iff.rfl
    rw [List.mem_flatten]
    constructor
    · rintro ⟨l, hl, hnd⟩
      simp only [List.mem_map] at hl
      obtain ⟨p, hp, rfl⟩ := hl
      simp only [List.mem_map] at hnd
      obtain ⟨i, hi, rfl⟩ := hnd
      rw [mem_intRange] at hi
      exact ⟨p, hp, i, hi.1, Int.lt_add_one_iff.mp hi.2, rfl⟩
    · rintro ⟨p, hp, i, h1, h2, rfl⟩
      refine ⟨(intRange ⌈tInit / (1 / p.samplingRate)⌉
          (⌊tEnd / (1 / p.samplingRate)⌋ + 1)).map
          (fun i : Int => TimeNode.mk ((i : K) * (1 / p.samplingRate)) [p] []),
          ?_, ?_⟩
      · simp only [List.mem_map]
        exact ⟨p, hp, rfl⟩
      · simp only [List.mem_map]
        exact ⟨i, mem_intRange.mpr ⟨h1, Int.lt_add_one_iff.mpr h2⟩, rfl⟩
  · intro a b rest
    constructor
    · intro h
      show mergeAux a (b :: rest) = _
      rw [mergeAux, if_pos h]
      rfl
    · intro h
      show mergeAux a (b :: rest) = _
      rw [mergeAux, if_neg h]
      rfl

/-- Witness for `timeNodes_sampling_and_merge`: with `samplingRate = 2`
(`dt = 1/2`), span `[1/4, 1]`, the node `1 * (1/2)` subscribing the
parachute is generated, and two nodes `1e-8` apart are merged with their
subscription lists concatenated. -/
theorem timeNodes_sampling_and_merge_witness :
    TimeNode.mk (((1 : ℤ) : ℚ) * (1 / drogueSample.samplingRate))
        [drogueSample] [] ∈ addParachutes [drogueSample] (1 / 4) 1 [] ∧
    tnMerge [⟨(0 : ℚ), [], []⟩, ⟨1 / 100000000, [drogueSample], []⟩] =
      tnMerge [⟨(0 : ℚ), [] ++ [drogueSample], [] ++ []⟩] :=
  ⟨((timeNodes_sampling_and_merge [drogueSample] (1 / 4) 1 []).1 _).mpr
      (Or.inr ⟨drogueSample, by simp, 1,
        by norm_num [drogueSample, Int.ceil_le],
        by norm_num [drogueSample, Int.le_floor], rfl⟩),
   ((timeNodes_sampling_and_merge ([] : List (ParachuteRec ℚ)) 0 0 []).2
      ⟨(0 : ℚ), [], []⟩ ⟨1 / 100000000, [drogueSample], []⟩ []).1
      (by rw [show |(1 : ℚ) / 100000000 - 0| = 1 / 100000000 by
            rw [sub_zero, abs_of_nonneg]
            norm_num]
          norm_num)⟩

/-- C9: in `uDot`'s strip-theory loop, a surface whose two body-frame
lateral freestream velocity components are both zero contributes zero lift
force and zero moment (the computation is skipped by the
`compStreamVxB² + compStreamVyB² != 0` guard), and whenever that guard
passes both divisors — the lateral norm `liftDirNorm` and the stream speed
`compStreamSpeed` — are nonzero, so the divisions are never executed with a
zero divisor. -/
theorem surface_zero_lateral_skipped_no_div_by_zero {K : Type}
    [LinearOrderedField K] (P : FlightData K) (sqrt acos : K → K)
    (u : StateVec K) (aGeo rho : K) (surf : K × K)
    (hsqrt : ∀ x : K, 0 < x → sqrt x ≠ 0) :
    ((compStreamLateral P u surf).1 = 0 ∧ (compStreamLateral P u surf).2 = 0 →
      surfaceContribution P sqrt acos u aGeo rho surf = (0, 0, 0, 0)) ∧
    ((compStreamLateral P u surf).1 ^ 2 + (compStreamLateral P u surf).2 ^ 2
        ≠ 0 →
      sqrt ((compStreamLateral P u surf).1 ^ 2 +
        (compStreamLateral P u surf).2 ^ 2) ≠ 0 ∧
      ∀ w : K, sqrt ((compStreamLateral P u surf).1 ^ 2 +
        (compStreamLateral P u surf).2 ^ 2 + w ^ 2) ≠ 0) := by
  constructor
  · rintro ⟨h1, h2⟩
    simp only [surfaceContribution]
    rw [h1, h2]
    rw [if_neg (by norm_num)]
  · intro hne
    have hpos : 0 < (compStreamLateral P u surf).1 ^ 2 +
        (compStreamLateral P u surf).2 ^ 2 := by
      rcases lt_or_eq_of_le (by positivity :
        (0 : K) ≤ (compStreamLateral P u surf).1 ^ 2 +
          (compStreamLateral P u surf).2 ^ 2) with h | h
      · exact h
      · exact absurd h.symm hne
    refine ⟨hsqrt _ hpos, fun w => hsqrt _ ?_⟩
    nlinarith [sq_nonneg w]

/-- Witness for `surface_zero_lateral_skipped_no_div_by_zero`: at the
all-zero state (no wind) the lateral components vanish and the contribution
is zero; at unit x-velocity the lateral norm argument is nonzero, so with
`sqrt = id` the divisors are nonzero. -/
theorem surface_zero_lateral_skipped_no_div_by_zero_witness :
    surfaceContribution sampleData id id zeroState 0 1 (1, 2) = (0, 0, 0, 0) ∧
    id ((compStreamLateral sampleData stateVX1 (1, 2)).1 ^ 2 +
      (compStreamLateral sampleData stateVX1 (1, 2)).2 ^ 2) ≠ 0 :=
  ⟨(surface_zero_lateral_skipped_no_div_by_zero sampleData id id zeroState 0 1
      (1, 2) (fun _ hx => ne_of_gt hx)).1
      (by norm_num [compStreamLateral, sampleData, zeroState,
        mat11, mat12, mat21, mat22]),
   ((surface_zero_lateral_skipped_no_div_by_zero sampleData id id stateVX1 0 1
      (1, 2) (fun _ hx => ne_of_gt hx)).2
      (by norm_num [compStreamLateral, sampleData, stateVX1,
        mat11, mat12, mat21, mat22])).1⟩

/-- `pyGet` on the empty list is Python's `IndexError`. -/
theorem pyGet_nil {α : Type} (i : Int) : pyGet ([] : List α) i = none := by
  unfold pyGet
  split_ifs <;> simp

/-- `pyGet` at a non-negative index is plain `get?`. -/
theorem pyGet_nonneg {α : Type} (l : List α) (i : Int) (h : 0 ≤ i) :
    pyGet l i = l.get? i.toNat :=
  if_pos h

/-- A successful non-negative `pyGet` bounds the index by the length. -/
theorem pyGet_lt_length {α : Type} (l : List α) (i : Int) (x : α) (h : 0 ≤ i)
    (hx : pyGet l i = some x) : i.toNat < l.length := by
  rw [pyGet_nonneg _ _ h] at hx
  by_contra hc
  rw [List.get?_eq_none.mpr (by omega)] at hx
  exact Option.noConfusion hx

/-- Inserting at a valid non-negative index `i`: the inserted element lands
at `i`, the element previously at `i` moves to `i+1`, and all entries at
indices below `i` are unchanged. -/
theorem pyGet_pyInsert_facts {α : Type} (l : List α) (i : Int) (x next : α)
    (h0 : 0 ≤ i) (hnext : pyGet l i = some next) :
    pyGet (pyInsert l i x) i = some x ∧
    pyGet (pyInsert l i x) (i + 1) = some next ∧
    ∀ j : Int, 0 ≤ j → j < i → pyGet (pyInsert l i x) j = pyGet l j := by
  have hlt := pyGet_lt_length l i next h0 hnext
  rw [pyGet_nonneg _ _ h0] at hnext
  have hmin : min i.toNat l.length = i.toNat := by omega
  have hins : pyInsert l i x = l.take i.toNat ++ x :: l.drop i.toNat := by
    unfold pyInsert
    rw [if_neg (by omega : ¬i < 0), hmin]
  have hlentake : (l.take i.toNat).length = i.toNat := by
    simp
    omega
  refine ⟨?_, ?_, ?_⟩
  · rw [pyGet_nonneg _ _ h0, hins,
      List.get?_append_right (by omega), hlentake]
    simp
  · rw [pyGet_nonneg _ _ (by omega), hins,
      List.get?_append_right (by omega), hlentake]
    have : (i + 1).toNat - i.toNat = 1 := by omega
    rw [this]
    show (l.drop i.toNat).get? 0 = some next
    rw [List.get?_drop]
    simpa using hnext
  · intro j hj0 hji
    rw [pyGet_nonneg _ _ hj0, pyGet_nonneg _ _ hj0, hins,
      List.get?_append (by omega), List.get?_take (by omega)]

/-- The direct-insertion branch of `FlightPhases.add`: when the new phase's
start time lies strictly between the neighbours at `index-1` and `index`,
the phase is inserted exactly at `index`. -/
theorem fpAdd_insert_direct {K : Type} [LinearOrderedField K] {μ : Type}
    (fuel : Nat) (lst : List (FlightPhase K μ)) (p next prev : FlightPhase K μ)
    (i : Int) (hnext : pyGet lst i = some next)
    (hprev : pyGet lst (i - 1) = some prev)
    (h1 : prev.t < p.t) (h2 : p.t < next.t) :
    fpAdd (fuel + 1) lst p (some i) = some (pyInsert lst i p) := by
  have hne : lst.isEmpty = false := by
    cases lst with
    | nil => rw [pyGet_nil] at hnext; exact Option.noConfusion hnext
    | cons a as => rfl
  unfold fpAdd
  rw [hne]
  simp only [Bool.false_eq_true, if_false, hnext, hprev]
  rw [if_pos ⟨h1, h2⟩]

/-- C5: when a parachute trigger fires at node time `nodeT` (in either the
strict or the overshoot discipline), the parachute is removed from the
active list; a clear phase reusing the current dynamics model and starting
at `nodeT` is inserted immediately after the current phase (index
`phaseIndex+1`); a phase starting at `nodeT + lag` with the
parachute-descent model and the CdS-installing callback is inserted after
it (index `phaseIndex+2`); the remaining time nodes are flushed (a node at
the current solver time is appended); the solver is marked finished and the
event recorded. -/
theorem parachute_trigger_schedules_phases {K : Type} [LinearOrderedField K]
    {μ : Type} (fuel : Nat) (ref : μ) (s : SimState K μ)
    (phaseIndex nodeIndex : Nat) (currentDeriv : Option μ) (nodeT : K)
    (p : ParachuteRec K) (cur next : FlightPhase K μ)
    (hcur : pyGet s.flightPhases (phaseIndex : Int) = some cur)
    (hnext : pyGet s.flightPhases ((phaseIndex : Int) + 1) = some next)
    (h1 : cur.t < nodeT) (h2 : nodeT < next.t)
    (h3 : 0 < p.lag) (h4 : nodeT + p.lag < next.t) :
    parachuteTriggerFire (fuel + 1) ref s phaseIndex nodeIndex currentDeriv
        nodeT p =
      some { t := s.t,
             parachutes := s.parachutes.erase p,
             flightPhases :=
               pyInsert (pyInsert s.flightPhases ((phaseIndex : Int) + 1)
                   ⟨nodeT, currentDeriv, [], true⟩) ((phaseIndex : Int) + 2)
                 ⟨nodeT + p.lag, some ref,
                   [Callback.setParachuteCdS p.CdS], false⟩,
             timeNodes := flushAfter s.timeNodes nodeIndex ++ [⟨s.t, [], []⟩],
             solverFinished := true,
             parachuteEvents := s.parachuteEvents ++ [(s.t, p)] } ∧
    pyGet (pyInsert (pyInsert s.flightPhases ((phaseIndex : Int) + 1)
          ⟨nodeT, currentDeriv, [], true⟩) ((phaseIndex : Int) + 2)
        ⟨nodeT + p.lag, some ref, [Callback.setParachuteCdS p.CdS], false⟩)
        ((phaseIndex : Int) + 1) =
      some ⟨nodeT, currentDeriv, [], true⟩ ∧
    pyGet (pyInsert (pyInsert s.flightPhases ((phaseIndex : Int) + 1)
          ⟨nodeT, currentDeriv, [], true⟩) ((phaseIndex : Int) + 2)
        ⟨nodeT + p.lag, some ref, [Callback.setParachuteCdS p.CdS], false⟩)
        ((phaseIndex : Int) + 2) =
      some ⟨nodeT + p.lag, some ref, [Callback.setParachuteCdS p.CdS],
        false⟩ := by
  have hprev1 : pyGet s.flightPhases ((phaseIndex : Int) + 1 - 1) = some cur := by
    rwa [add_sub_cancel_right]
  have hfp1 := fpAdd_insert_direct fuel s.flightPhases
    ⟨nodeT, currentDeriv, [], true⟩ next cur _ hnext hprev1 h1 h2
  obtain ⟨hA, hB, _⟩ := pyGet_pyInsert_facts s.flightPhases
    ((phaseIndex : Int) + 1) ⟨nodeT, currentDeriv, [], true⟩ next
    (by omega) hnext
  have hnext2 : pyGet (pyInsert s.flightPhases ((phaseIndex : Int) + 1)
      ⟨nodeT, currentDeriv, [], true⟩) ((phaseIndex : Int) + 2) = some next := by
    rw [show (phaseIndex : Int) + 2 = (phaseIndex : Int) + 1 + 1 by ring]
    exact hB
  have hprev2 : pyGet (pyInsert s.flightPhases ((phaseIndex : Int) + 1)
      ⟨nodeT, currentDeriv, [], true⟩) ((phaseIndex : Int) + 2 - 1) =
      some ⟨nodeT, currentDeriv, [], true⟩ := by
    rw [show (phaseIndex : Int) + 2 - 1 = (phaseIndex : Int) + 1 by ring]
    exact hA
  have hfp2 := fpAdd_insert_direct fuel
    (pyInsert s.flightPhases ((phaseIndex : Int) + 1)
      ⟨nodeT, currentDeriv, [], true⟩)
    ⟨nodeT + p.lag, some ref, [Callback.setParachuteCdS p.CdS], false⟩
    next ⟨nodeT, currentDeriv, [], true⟩ _ hnext2 hprev2
    (by simpa using by linarith) h4
  obtain ⟨hA2, _, hC2⟩ := pyGet_pyInsert_facts
    (pyInsert s.flightPhases ((phaseIndex : Int) + 1)
      ⟨nodeT, currentDeriv, [], true⟩)
    ((phaseIndex : Int) + 2)
    ⟨nodeT + p.lag, some ref, [Callback.setParachuteCdS p.CdS], false⟩
    next (by omega) hnext2
  refine ⟨?_, ?_, hA2⟩
  · simp only [parachuteTriggerFire, hfp1, hfp2]
  · rw [hC2 _ (by omega) (by omega)]
    exact hA

/-- Witness for `parachute_trigger_schedules_phases` on `trigSimState`:
trigger at `nodeT = 1` in phase 0, node 1, with lag `3/2`. -/
theorem parachute_trigger_schedules_phases_witness :
    parachuteTriggerFire 1 "uDotParachute" trigSimState 0 1 (some "uDotRail")
        1 drogueSample =
      some { t := trigSimState.t,
             parachutes := trigSimState.parachutes.erase drogueSample,
             flightPhases :=
               pyInsert (pyInsert trigSimState.flightPhases ((0 : Int) + 1)
                   ⟨1, some "uDotRail", [], true⟩) ((0 : Int) + 2)
                 ⟨1 + drogueSample.lag, some "uDotParachute",
                   [Callback.setParachuteCdS drogueSample.CdS], false⟩,
             timeNodes := flushAfter trigSimState.timeNodes 1 ++
               [⟨trigSimState.t, [], []⟩],
             solverFinished := true,
             parachuteEvents := trigSimState.parachuteEvents ++
               [(trigSimState.t, drogueSample)] } :=
  (parachute_trigger_schedules_phases 0 "uDotParachute" trigSimState 0 1
    (some "uDotRail") 1 drogueSample ⟨0, some "uDotRail", [], false⟩
    ⟨10, none, [], true⟩ rfl rfl (by norm_num) (by norm_num)
    (by norm_num [drogueSample]) (by norm_num [drogueSample])).1

/-- In a time-sorted phase list the head starts no later than the last
phase. -/
theorem phasesSorted_head_le_getLast {K : Type} [LinearOrderedField K]
    {μ : Type} :
    ∀ (l : List (FlightPhase K μ)) (a b : FlightPhase K μ), phasesSorted l →
      l.head? = some a → l.getLast? = some b → a.t ≤ b.t := by
  intro l
  induction l with
  | nil => intro a b _ ha _; exact absurd ha (by simp)
  | cons x xs ih =>
    intro a b hs ha hb
    have hxa : x = a := by simpa using ha
    cases xs with
    | nil =>
      have hxb : x = b := by simpa using hb
      rw [← hxa, ← hxb]
    | cons y ys =>
      have hxy : x.t < y.t := (List.chain'_cons.mp hs).1
      have hs' : phasesSorted (y :: ys) := (List.chain'_cons.mp hs).2
      have hb' : (y :: ys).getLast? = some b := by
        simpa [List.getLast?_cons_cons] using hb
      rw [← hxa]
      exact le_trans hxy.le (ih y b hs' rfl hb')

/-- Inserting an element strictly between the chain neighbours at positions
`k-1` and `k` preserves `Chain'`. -/
theorem chain'_insert_between {α : Type} {R : α → α → Prop} (l : List α)
    (k : Nat) (x prev next : α) (hk1 : 1 ≤ k)
    (hprev : l.get? (k - 1) = some prev) (hnext : l.get? k = some next)
    (hs : List.Chain' R l) (h1 : R prev x) (h2 : R x next) :
    List.Chain' R (l.take k ++ x :: l.drop k) := by
  have hklen : k < l.length := by
    by_contra hc
    rw [List.get?_eq_none.mpr (by omega)] at hnext
    exact Option.noConfusion hnext
  rw [List.chain'_append]
  refine ⟨hs.take k, ?_, ?_⟩
  · rw [List.chain'_cons']
    refine ⟨?_, hs.drop k⟩
    intro y hy
    have hh : (l.drop k).head? = some next := by
      rw [List.head?_drop]
      rw [List.get?_eq_getElem?] at hnext
      exact hnext
    rw [hh] at hy
    have hy' : next = y := by simpa using hy
    rw [← hy']
    exact h2
  · intro a ha z hz
    have hz' : x = z := by simpa using hz
    have hgl : (l.take k).getLast? = some prev := by
      rw [List.getLast?_take, if_neg (by omega)]
      rw [List.get?_eq_getElem?] at hprev
      rw [hprev]
      rfl
    rw [hgl] at ha
    have ha' : prev = a := by simpa using ha
    rw [← hz', ← ha']
    exact h1

/-- The inserting branch of `FlightPhases.add` preserves the sortedness
invariant (with Python's negative-index semantics; the degenerate `index 0`
case is impossible on a sorted list). -/
theorem fpAdd_insert_branch_sorted {K : Type} [LinearOrderedField K]
    {μ : Type} (lst : List (FlightPhase K μ)) (p next prev : FlightPhase K μ)
    (i : Int) (hnext : pyGet lst i = some next)
    (hprev : pyGet lst (i - 1) = some prev)
    (h1 : prev.t < p.t) (h2 : p.t < next.t) (hs : phasesSorted lst) :
    phasesSorted (pyInsert lst i p) := by
  have hlen0 : lst ≠ [] := by
    rintro rfl
    rw [pyGet_nil] at hnext
    exact Option.noConfusion hnext
  have hlenpos : 0 < lst.length := List.length_pos.mpr hlen0
  by_cases h0 : 0 ≤ i
  · have hnext' : lst.get? i.toNat = some next := by
      rw [pyGet_nonneg _ _ h0] at hnext
      exact hnext
    have hnlen : i.toNat < lst.length := pyGet_lt_length lst i next h0 hnext
    by_cases hi1 : 1 ≤ i
    · have hprev' : lst.get? (i.toNat - 1) = some prev := by
        rw [pyGet_nonneg _ _ (by omega)] at hprev
        rw [show (i - 1).toNat = i.toNat - 1 by omega] at hprev
        exact hprev
      have hins : pyInsert lst i p = lst.take i.toNat ++ p :: lst.drop i.toNat := by
        unfold pyInsert
        rw [if_neg (by omega : ¬i < 0),
          show min i.toNat lst.length = i.toNat by omega]
      rw [hins]
      exact chain'_insert_between lst i.toNat p prev next (by omega) hprev'
        hnext' hs h1 h2
    · -- index 0: `previousPhase` wraps to the last element; contradiction on
      -- a sorted list
      obtain rfl : i = 0 := by omega
      have hprev' : lst.getLast? = some prev := by
        unfold pyGet at hprev
        rw [if_neg (by norm_num), if_pos (by omega)] at hprev
        rw [List.getLast?_eq_get?]
        rw [show ((lst.length : Int) + (0 - 1)).toNat = lst.length - 1 by omega]
          at hprev
        exact hprev
      have hnext'' : lst.head? = some next := by
        rw [← List.get?_zero]
        simpa using hnext'
      have hle := phasesSorted_head_le_getLast lst next prev hs hnext'' hprev'
      exact absurd (lt_trans h2 (lt_of_le_of_lt hle h1)) (lt_irrefl p.t)
  · push_neg at h0
    have hcond : 0 ≤ (lst.length : Int) + i := by
      by_contra hc
      unfold pyGet at hnext
      rw [if_neg (by omega), if_neg (by omega)] at hnext
      exact Option.noConfusion hnext
    have hnext' : lst.get? ((lst.length : Int) + i).toNat = some next := by
      unfold pyGet at hnext
      rw [if_neg (by omega), if_pos hcond] at hnext
      exact hnext
    have hnlen : ((lst.length : Int) + i).toNat < lst.length := by
      by_contra hc
      rw [List.get?_eq_none.mpr (by omega)] at hnext'
      exact Option.noConfusion hnext'
    have hcond2 : 0 ≤ (lst.length : Int) + (i - 1) := by
      by_contra hc
      unfold pyGet at hprev
      rw [if_neg (by omega), if_neg (by omega)] at hprev
      exact Option.noConfusion hprev
    have hn1 : 1 ≤ ((lst.length : Int) + i).toNat := by omega
    have hprev' : lst.get? (((lst.length : Int) + i).toNat - 1) = some prev := by
      unfold pyGet at hprev
      rw [if_neg (by omega), if_pos hcond2] at hprev
      rw [show ((lst.length : Int) + (i - 1)).toNat =
        ((lst.length : Int) + i).toNat - 1 by omega] at hprev
      exact hprev
    have hins : pyInsert lst i p =
        lst.take ((lst.length : Int) + i).toNat ++
          p :: lst.drop ((lst.length : Int) + i).toNat := by
      unfold pyInsert
      rw [if_pos h0]
    rw [hins]
    exact chain'_insert_between lst ((lst.length : Int) + i).toNat p prev next
      hn1 hprev' hnext' hs h1 h2

/-- `FlightPhases.add` on an empty list appends the phase. -/
theorem fpAdd_empty {K : Type} [LinearOrderedField K] {μ : Type} (fuel : Nat)
    (p : FlightPhase K μ) (idx : Option Int) :
    fpAdd (fuel + 1) [] p idx = some [p] := rfl

/-- The plain append branch of `FlightPhases.add`: a phase starting strictly
after the current last phase is appended. -/
theorem fpAdd_append_direct {K : Type} [LinearOrderedField K] {μ : Type}
    (fuel : Nat) (lst : List (FlightPhase K μ)) (p prev : FlightPhase K μ)
    (hgl : lst.getLast? = some prev) (hne : ¬lst.isEmpty = true)
    (hlt : prev.t < p.t) :
    fpAdd (fuel + 1) lst p none = some (lst ++ [p]) := by
  unfold fpAdd
  rw [if_neg hne]
  simp only [hgl]
  rw [if_pos hlt]

/-- The tie branch of `FlightPhases.add`: a phase starting exactly at the
last phase's start time is retried with its start time shifted by `1e-7`. -/
theorem fpAdd_tie_shift {K : Type} [LinearOrderedField K] {μ : Type}
    (fuel : Nat) (lst : List (FlightPhase K μ)) (p prev : FlightPhase K μ)
    (hgl : lst.getLast? = some prev) (hne : ¬lst.isEmpty = true)
    (heq : p.t = prev.t) :
    fpAdd (fuel + 1) lst p none =
      fpAdd fuel lst { p with t := p.t + 1 / 10000000 } none := by
  generalize hR : fpAdd fuel lst { p with t := p.t + 1 / 10000000 } none = r
  unfold fpAdd
  rw [if_neg hne]
  simp only [hgl]
  rw [if_neg (by rw [heq]; exact lt_irrefl _), if_pos heq]
  exact hR

/-- Any successful `FlightPhases.add` on a sorted phase list returns a
sorted phase list. -/
theorem fpAdd_some_sorted {K : Type} [LinearOrderedField K] {μ : Type} :
    ∀ (fuel : Nat) (lst : List (FlightPhase K μ)) (p : FlightPhase K μ)
      (idx : Option Int) (out : List (FlightPhase K μ)),
      phasesSorted lst → fpAdd fuel lst p idx = some out → phasesSorted out := by
  intro fuel
  induction fuel with
  | zero =>
    intro lst p idx out _ h
    exact absurd h (by simp [fpAdd])
  | succ f ih =>
    intro lst p idx out hs hout
    cases idx with
    | none =>
      unfold fpAdd at hout
      by_cases hemp : lst.isEmpty
      · rw [if_pos hemp] at hout
        obtain rfl : lst ++ [p] = out := Option.some.inj hout
        obtain rfl : lst = [] := List.isEmpty_iff.mp hemp
        simp [phasesSorted]
      · rw [if_neg hemp] at hout
        cases hgl : lst.getLast? with
        | none =>
          simp only [hgl] at hout
          exact Option.noConfusion hout
        | some prev =>
          simp only [hgl] at hout
          split_ifs at hout with hlt heq
          · obtain rfl : lst ++ [p] = out := Option.some.inj hout
            rw [phasesSorted, List.chain'_append]
            refine ⟨hs, List.chain'_singleton p, ?_⟩
            intro a ha z hz
            have hz' : p = z := by simpa using hz
            rw [hgl] at ha
            have ha' : prev = a := by simpa using ha
            rw [← hz', ← ha']
            exact hlt
          · exact ih _ _ _ _ hs hout
          · exact ih _ _ _ _ hs hout
    | some i =>
      unfold fpAdd at hout
      by_cases hemp : lst.isEmpty
      · rw [if_pos hemp] at hout
        obtain rfl : lst ++ [p] = out := Option.some.inj hout
        obtain rfl : lst = [] := List.isEmpty_iff.mp hemp
        simp [phasesSorted]
      · rw [if_neg hemp] at hout
        cases hn : pyGet lst i with
        | none =>
          simp only [hn] at hout
          exact Option.noConfusion hout
        | some next =>
          simp only [hn] at hout
          cases hp : pyGet lst (i - 1) with
          | none =>
            simp only [hp] at hout
            exact Option.noConfusion hout
          | some prev =>
            simp only [hp] at hout
            split_ifs at hout with hc1 hc2 hc3 hc4
            · obtain rfl : pyInsert lst i p = out := Option.some.inj hout
              exact fpAdd_insert_branch_sorted lst p next prev i hn hp
                hc1.1 hc1.2 hs
            · exact ih _ _ _ _ hs hout
            · exact ih _ _ _ _ hs hout
            · exact ih _ _ _ _ hs hout
            · exact ih _ _ _ _ hs hout

/-- C8: after any sequence of `addPhase` insertions that all return, the
flight-phase list's start times remain strictly increasing; and an
insertion whose start time exactly ties the preceding phase's does not
create a tie — it is retried with the start time shifted by `1e-7`. -/
theorem flightPhases_sorted_after_insertions {K : Type} [LinearOrderedField K]
    {μ : Type} (fuel : Nat) (init : List (FlightPhase K μ))
    (reqs : List (FlightPhase K μ × Option Int))
    (out : List (FlightPhase K μ)) (hs : phasesSorted init)
    (hrun : reqs.foldlM (fun acc r => fpAdd fuel acc r.1 r.2) init =
      some out) :
    phasesSorted out ∧
    (∀ (f : Nat) (lst : List (FlightPhase K μ)) (p prev : FlightPhase K μ),
      lst.getLast? = some prev → ¬lst.isEmpty → p.t = prev.t →
      fpAdd (f + 1) lst p none =
        fpAdd f lst { p with t := p.t + 1 / 10000000 } none) := by
  constructor
  · induction reqs generalizing init with
    | nil =>
      simp only [List.foldlM_nil] at hrun
      obtain rfl : init = out := by simpa using hrun
      exact hs
    | cons r rs ih =>
      rw [List.foldlM_cons] at hrun
      cases hstep : fpAdd fuel init r.1 r.2 with
      | none =>
        rw [hstep] at hrun
        exact Option.noConfusion hrun
      | some mid =>
        rw [hstep] at hrun
        exact ih mid (fpAdd_some_sorted fuel init r.1 r.2 mid hs hstep) hrun
  · intro f lst p prev hgl hne heq
    exact fpAdd_tie_shift f lst p prev hgl hne heq

/-- Witness for `flightPhases_sorted_after_insertions`: appending phases at
`t = 0` and `t = 10` and then requesting a third phase at the tied time
`t = 10` yields the sorted list `[0, 10, 10 + 1e-7]`; and a tie request is
retried with the `1e-7` shift. -/
theorem flightPhases_sorted_after_insertions_witness :
    phasesSorted ([⟨0, none, [], true⟩, ⟨10, none, [], true⟩,
      ⟨10 + 1 / 10000000, none, [], true⟩] : List (FlightPhase ℚ Unit)) ∧
    fpAdd 2 ([⟨5, none, [], true⟩] : List (FlightPhase ℚ Unit))
        ⟨5, none, [], true⟩ none =
      fpAdd 1 [⟨5, none, [], true⟩] ⟨5 + 1 / 10000000, none, [], true⟩ none := by
  have e1 : fpAdd (K := ℚ) (μ := Unit) 2 [] ⟨0, none, [], true⟩ none =
      some [⟨0, none, [], true⟩] := fpAdd_empty 1 _ _
  have e2 : fpAdd (K := ℚ) (μ := Unit) 2 [⟨0, none, [], true⟩]
      ⟨10, none, [], true⟩ none =
      some [⟨0, none, [], true⟩, ⟨10, none, [], true⟩] := by
    simpa using fpAdd_append_direct 1 [⟨0, none, [], true⟩]
      ⟨10, none, [], true⟩ ⟨0, none, [], true⟩ (by simp) (by simp)
      (by norm_num)
  have e3 : fpAdd (K := ℚ) (μ := Unit) 2
      [⟨0, none, [], true⟩, ⟨10, none, [], true⟩] ⟨10, none, [], true⟩ none =
      some [⟨0, none, [], true⟩, ⟨10, none, [], true⟩,
        ⟨10 + 1 / 10000000, none, [], true⟩] := by
    have t1 : fpAdd (K := ℚ) (μ := Unit) 2
        [⟨0, none, [], true⟩, ⟨10, none, [], true⟩] ⟨10, none, [], true⟩
        none =
        fpAdd 1 [⟨0, none, [], true⟩, ⟨10, none, [], true⟩]
          ⟨10 + 1 / 10000000, none, [], true⟩ none :=
      fpAdd_tie_shift (K := ℚ) (μ := Unit) 1 _ _ ⟨10, none, [], true⟩
        (by simp) (by simp) rfl
    have t2 : fpAdd (K := ℚ) (μ := Unit) 1
        [⟨0, none, [], true⟩, ⟨10, none, [], true⟩]
        ⟨10 + 1 / 10000000, none, [], true⟩ none =
        some [⟨0, none, [], true⟩, ⟨10, none, [], true⟩,
          ⟨10 + 1 / 10000000, none, [], true⟩] := by
      simpa using fpAdd_append_direct (K := ℚ) (μ := Unit) 0
        [⟨0, none, [], true⟩, ⟨10, none, [], true⟩]
        ⟨10 + 1 / 10000000, none, [], true⟩ ⟨10, none, [], true⟩ (by simp)
        (by simp) (by norm_num)
    rw [t1, t2]
  have hrun : List.foldlM
      (fun acc (r : FlightPhase ℚ Unit × Option Int) => fpAdd 2 acc r.1 r.2)
      ([] : List (FlightPhase ℚ Unit))
      [(⟨0, none, [], true⟩, none), (⟨10, none, [], true⟩, none),
        (⟨10, none, [], true⟩, none)] =
      some [⟨0, none, [], true⟩, ⟨10, none, [], true⟩,
        ⟨10 + 1 / 10000000, none, [], true⟩] := by
    simp only [List.foldlM_cons, List.foldlM_nil, e1, e2, e3,
      Option.bind_eq_bind, Option.some_bind]
    rfl
  have T := flightPhases_sorted_after_insertions 2 []
    [(⟨0, none, [], true⟩, none), (⟨10, none, [], true⟩, none),
      (⟨10, none, [], true⟩, none)]
    [⟨0, none, [], true⟩, ⟨10, none, [], true⟩,
      ⟨10 + 1 / 10000000, none, [], true⟩]
    (by simp [phasesSorted]) hrun
  exact ⟨T.1, T.2 1 [⟨5, none, [], true⟩] ⟨5, none, [], true⟩
    ⟨5, none, [], true⟩ (by simp) (by simp) rfl⟩

end RocketPyAlpha
